import Mathlib

/-!
Shallow embedding of the PyTorch classifier adapter of
`src/secml/pytorch/classifiers/c_classifier_pytorch.py` (class
`CClassifierPyTorch`), together with proofs of the specification claims
about its training loop, state (de)serialization, inference pipeline and
gradient engine.

Numeric values (IEEE floats in the source) are modelled over an arbitrary
linearly ordered commutative ring `R`: no operation relevant to the claims
divides, so the theorems hold uniformly for every such ring (in
particular for the rationals); concrete evaluations instantiate `R := ℤ`.

A sample is a flat vector `List R`; a data matrix is a `List (List R)`
(rows in order).  The PyTorch network is modelled as an ordered list of
named first-level sub-modules (`torch.nn.Module._modules`), each a layer
with an explicit forward map and vector-Jacobian product (the `backward`
of autograd).  `torchvision` reshaping to `input_shape` preserves the flat
contents of a sample, so it is the identity on the flat representation.
-/

deriving instance DecidableEq for Except

namespace CClassifierPyTorch

section Defs

variable {R : Type} [LinearOrderedCommRing R]

/-- Dot product of two vectors, truncating at the shorter one. -/
def dot (u v : List R) : R := (List.zipWith (fun a b => a * b) u v).sum

/-- A first-level sub-module of the network: a fully connected layer
(weight matrix `W` as list of rows, bias `b`) or a ReLU activation. -/
inductive Layer (R : Type) where
  | linear (W : List (List R)) (b : List R)
  | relu
  deriving DecidableEq, Repr

/-- Forward pass of a single layer on a flat sample. -/
def Layer.forward : Layer R → List R → List R
  | .linear W b, x => List.zipWith (fun row bi => dot row x + bi) W b
  | .relu, x => x.map (fun t => max t 0)

/-- Vector-Jacobian product of a layer: given the input `x` the layer saw
on the forward pass and the gradient `w` flowing in from the output side,
produce the gradient on the input (what `torch.autograd.backward`
accumulates).  For a linear layer this is `Wᵀ w`; for ReLU the incoming
gradient is masked by the positivity of the forward input. -/
def Layer.vjp : Layer R → List R → List R → List R
  | .linear W _b, x, w =>
      (List.range x.length).map
        (fun j => (List.zipWith (fun wi row => wi * row.getD j 0) w W).sum)
  | .relu, x, w => List.zipWith (fun xi wi => if 0 < xi then wi else 0) x w

/-- Back-propagation of an output-side gradient `w` through a chain of
layers applied (in list order) to input `x`. -/
def backwardChain : List (Layer R) → List R → List R → List R
  | [], _x, w => w
  | l :: ls, x, w => l.vjp x (backwardChain ls (l.forward x) w)

/-- The network: ordered association list of named first-level
sub-modules, as enumerated by `self._model._modules`. -/
abbrev Model (R : Type) := List (String × Layer R)

/-- Full forward pass of the network (`self._model(s)`), composing the
first-level sub-modules in declaration order. -/
def Model.forward (m : Model R) (x : List R) : List R :=
  m.foldl (fun v kl => kl.2.forward v) x

/-- Manual iteration of `_get_layer_output` over the first-level modules
for a named layer: forward the input through each module in declaration
order and stop at the first module whose name matches; if no name
matches, the `for ... else` clause raises `ValueError`. -/
def getLayerOutputNamed : Model R → List R → String → Except String (List R)
  | [], _s, layer => .error ("No layer `" ++ layer ++ "` found!")
  | (m_k, m) :: rest, s, layer =>
      let s' := m.forward s
      if m_k = layer then .ok s' else getLayerOutputNamed rest s' layer

/-- Embedding of `_get_layer_output`: with `layer = None` the whole model
is applied; otherwise the named sequential traversal is used. -/
def getLayerOutput (m : Model R) (s : List R) : Option String → Except String (List R)
  | none => .ok (Model.forward m s)
  | some layer => getLayerOutputNamed m s layer

/-- The chain of layers actually traversed by `_get_layer_output` before
it stops: everything up to and including the first module whose name
matches. -/
def takeThrough : Model R → String → List (Layer R)
  | [], _ => []
  | (m_k, m) :: rest, layer =>
      if m_k = layer then [m] else m :: takeThrough rest layer

/-- Layers traversed for a given layer reference: all of them for the
final output (`layer = None`), else the prefix up to the first match. -/
def layersUpTo (m : Model R) : Option String → List (Layer R)
  | none => m.map Prod.snd
  | some layer => takeThrough m layer

/-- One-hot vector of length `n` with a `1` at position `k`
(`w_in.zero_(); w_in[0, y] = 1`). -/
def oneHot (k n : ℕ) : List R :=
  (List.range n).map (fun i => if i = k then 1 else 0)

/-- Grouping of the rows of a data matrix into consecutive batches of
size `b` (`torch.utils.data.DataLoader` with `shuffle=False` and the
default `drop_last=False`): order is preserved and the last batch may be
shorter. -/
def chunkList {α : Type} (b : ℕ) (xs : List α) : List (List α) :=
  if xs.isEmpty then []
  else if b = 0 then [xs]
  else xs.take b :: chunkList b (xs.drop b)
termination_by xs.length
decreasing_by
  simp only [List.length_drop]
  have hx : xs.length ≠ 0 := by
    simpa [List.isEmpty_iff_length_eq_zero] using (by assumption : ¬xs.isEmpty = true)
  omega

/-- Index of the first occurrence of the maximum of a list
(`numpy.argmax` on a score row). -/
def argmaxIdx : List R → ℕ
  | [] => 0
  | [_] => 0
  | x :: y :: rest =>
      let j := argmaxIdx (y :: rest)
      if (y :: rest).getD j 0 ≤ x then 0 else j + 1

end Defs

/-- Hyperparameters captured by `torch.optim.SGD` at construction time
(`optimizer.defaults`): learning rate, momentum and weight decay. -/
structure SGDDefaults (R : Type) where
  lr : R
  momentum : R
  weight_decay : R
  deriving DecidableEq, Repr

/-- The parameter set an optimizer was bound to at construction.
`init_optimizer` either passes `self._model.parameters()` unchanged or,
when weight decay is active and biases are excluded from regularization,
the grouping produced by `add_weight_decay(self._model, weight_decay)`
(a helper outside the analysed sources, kept symbolic here): the binding
records which model the optimizer was built on and in which of the two
modes. -/
inductive ParamGrouping (R : Type) where
  | all (params : Model R)
  | decaySplit (params : Model R) (wd : R)
  deriving DecidableEq, Repr

/-- State of a `torch.optim.SGD` instance: the construction-time
defaults, the hyperparameters currently stored in its `param_groups`
(initially the defaults; replaced by `load_state_dict`), the parameter
binding, and the numeric per-parameter state (momentum buffers), which a
freshly constructed optimizer has empty. -/
structure Optimizer (R : Type) where
  grouping : ParamGrouping R
  defaults : SGDDefaults R
  param_groups : SGDDefaults R
  state : List (List R)
  deriving DecidableEq, Repr

/-- The adapter (`CClassifierPyTorch` instance): model and optimizer
handles, the public hyperparameters, the training bookkeeping
(`_start_epoch`, `_acc`, `_best_acc`), the expected input shape, the
inference configuration, and the `CClassifier` bookkeeping
(`_n_features`, `_classes`). -/
structure Adapter (R : Type) where
  model : Model R
  learning_rate : R
  momentum : R
  weight_decay : R
  regularize_bias : Bool
  optimizer : Optimizer R
  epochs : ℕ
  start_epoch : ℕ
  acc : R
  best_acc : R
  input_shape : Option (List ℕ)
  softmax_outputs : Bool
  batch_size : ℕ
  n_features : ℕ
  classes : List ℕ
  deriving DecidableEq, Repr

/-- The portable checkpoint dictionary produced by `state_dict()` and
consumed by `load_state()`.  The keys of the Python dict become fields:
`optimizer` (numeric state plus current `param_groups` hyperparameters,
with the nested `defaults` sub-record and the `regularize_bias` flag both
optional on load), `state_dict` (model parameters, field `model_state`),
`epoch`, `acc`, `best_acc` (optional on load, default `0`), and
`input_shape`. -/
structure StateRecord (R : Type) where
  optimizer_state : List (List R)
  optimizer_param_groups : SGDDefaults R
  optimizer_defaults : Option (SGDDefaults R)
  optimizer_regularize_bias : Option Bool
  model_state : Model R
  epoch : ℕ
  acc : Option R
  best_acc : Option R
  input_shape : Option (List ℕ)
  deriving DecidableEq, Repr

section Ops

variable {R : Type} [LinearOrderedCommRing R]

/-- Modelled from the spec: `CClassifier.is_clear` (base class, outside
the analysed sources) reports that the classifier has not been trained;
inference before any `fit`/`load_state` must fail with a not-trained
error.  A classifier with no known classes is untrained. -/
def is_clear (a : Adapter R) : Bool := a.classes.isEmpty

/-- Embedding of `init_optimizer`: rebuild the SGD optimizer bound to the
current model parameters, splitting the parameter grouping only when
weight decay is active and bias regularization is disabled; a fresh
optimizer carries the current hyperparameters as defaults and has empty
numeric state. -/
def init_optimizer (a : Adapter R) : Adapter R :=
  let params : ParamGrouping R :=
    if a.weight_decay ≠ 0 ∧ a.regularize_bias = false then
      ParamGrouping.decaySplit a.model a.weight_decay
    else ParamGrouping.all a.model
  { a with
      optimizer :=
        { grouping := params
          defaults :=
            { lr := a.learning_rate, momentum := a.momentum,
              weight_decay := a.weight_decay }
          param_groups :=
            { lr := a.learning_rate, momentum := a.momentum,
              weight_decay := a.weight_decay }
          state := [] } }

/-- Setter `learning_rate`: store the value, then recreate the
optimizer. -/
def set_learning_rate (a : Adapter R) (v : R) : Adapter R :=
  init_optimizer { a with learning_rate := v }

/-- Setter `momentum`: store the value, then recreate the optimizer. -/
def set_momentum (a : Adapter R) (v : R) : Adapter R :=
  init_optimizer { a with momentum := v }

/-- Setter `weight_decay`: store the value, then recreate the
optimizer. -/
def set_weight_decay (a : Adapter R) (v : R) : Adapter R :=
  init_optimizer { a with weight_decay := v }

/-- Setter `regularize_bias`: store the flag.  The source setter performs
no other action. -/
def set_regularize_bias (a : Adapter R) (v : Bool) : Adapter R :=
  { a with regularize_bias := v }

/-- Embedding of `state_dict()`: export optimizer state (augmented with
the optimizer defaults and the bias-regularization flag), model state,
`epoch = start_epoch + 1`, the accuracies and the input shape. -/
def state_dict (a : Adapter R) : StateRecord R :=
  { optimizer_state := a.optimizer.state
    optimizer_param_groups := a.optimizer.param_groups
    optimizer_defaults := some a.optimizer.defaults
    optimizer_regularize_bias := some a.regularize_bias
    model_state := a.model
    epoch := a.start_epoch + 1
    acc := some a.acc
    best_acc := some a.best_acc
    input_shape := a.input_shape }

/-- Width of the model output used to recompute the class set after a
state load: the source feeds a dummy batch shaped like `input_shape`
through the model and reads the last dimension of the output; for the
modelled layers that width depends only on the length of the flat input
(`input_shape` element count), so the dummy is a zero vector. -/
def dummyOutputWidth (m : Model R) (shape : List ℕ) : ℕ :=
  (Model.forward m (List.replicate shape.prod (0 : R))).length

/-- Embedding of `load_state(state_dict)`: restore optimizer defaults if
present (else warn and keep current values), restore the
bias-regularization flag if present, recreate the optimizer if either
was restored, load the optimizer numeric state, restore epoch count and
accuracies (missing accuracies default to `0`), load the model state,
take `input_shape` from the record when previously unknown (failing when
it is still unknown), then set `n_features` to the sum of the input
shape and recompute the class set from a dummy forward pass. -/
def load_state (a : Adapter R) (sd : StateRecord R) : Except String (Adapter R) :=
  let (a₁, recreate₁) : Adapter R × Bool :=
    match sd.optimizer_defaults with
    | some d =>
        ({ a with learning_rate := d.lr, momentum := d.momentum,
                  weight_decay := d.weight_decay }, true)
    | none => (a, false)
  let (a₂, recreate) : Adapter R × Bool :=
    match sd.optimizer_regularize_bias with
    | some rb => ({ a₁ with regularize_bias := rb }, true)
    | none => (a₁, recreate₁)
  let a₃ := if recreate then init_optimizer a₂ else a₂
  let a₄ := { a₃ with
                optimizer := { a₃.optimizer with
                                 state := sd.optimizer_state,
                                 param_groups := sd.optimizer_param_groups } }
  let a₅ := { a₄ with
                start_epoch := sd.epoch
                acc := sd.acc.getD 0
                best_acc := sd.best_acc.getD 0
                model := sd.model_state }
  let a₆ := if a₅.input_shape = none
            then { a₅ with input_shape := sd.input_shape } else a₅
  match a₆.input_shape with
  | none => .error "`input_shape` is not known. Cannot load state"
  | some shape =>
      .ok { a₆ with
              n_features := shape.sum
              classes := List.range (dummyOutputWidth a₆.model shape) }

/-- The score matrix computed by `predict`: the input rows are grouped
into consecutive batches by the test data loader (`shuffle=False`), each
batch is forward-passed row by row, the per-batch score blocks are
concatenated in order, and softmax post-processing is applied to the
concatenated matrix when configured.  `smax` is the row-wise map applied
by `CSoftmax().softmax` (a collaborator outside the analysed sources,
kept abstract). -/
def predictScores (smax : List R → List R) (a : Adapter R)
    (x : List (List R)) : List (List R) :=
  let scores :=
    ((chunkList a.batch_size x).map
      (fun batch => batch.map (Model.forward a.model))).flatten
  if a.softmax_outputs then scores.map smax else scores

/-- Embedding of `predict(x, return_decision_function=True)`: fail with
the not-trained error on an untrained classifier, otherwise return the
per-row argmax labels together with the full score matrix. -/
def predict (smax : List R → List R) (a : Adapter R)
    (x : List (List R)) : Except String (List ℕ × List (List R)) :=
  if is_clear a then .error "make sure the classifier is trained first."
  else
    let scores := predictScores smax a x
    .ok (scores.map argmaxIdx, scores)

/-- Embedding of `_decision_function(x, y)`: same batched pipeline, but
softmax post-processing is applied to each batch block separately and
only column `y` of each block is kept; the per-batch column pieces are
concatenated and returned as a flat sequence. -/
def decision_function (smax : List R → List R) (a : Adapter R)
    (x : List (List R)) (y : ℕ) : Except String (List R) :=
  if is_clear a then .error "make sure the classifier is trained first."
  else
    .ok (((chunkList a.batch_size x).map
        (fun batch =>
          let logits := batch.map (Model.forward a.model)
          let logits := if a.softmax_outputs then logits.map smax else logits
          logits.map (fun row => row.getD y 0))).flatten)

/-- Embedding of `_gradient_f(x, y, w, layer)`: reject non-single-sample
input, forward the sample up to the requested layer, build the
back-propagation seed (explicit `w`, or the one-hot vector at class `y`
for the last layer), scale it by the softmax Jacobian row when softmax
post-processing is enabled at the last layer (`sgrad` stands for
`CSoftmax().gradient`, a collaborator outside the analysed sources), and
back-propagate through the traversed layers, returning the gradient
accumulated on the input sample. -/
def gradient_f (sgrad : List R → Option ℕ → List R) (a : Adapter R)
    (x : List (List R)) (y : Option ℕ) (w : Option (List R))
    (layer : Option String) : Except String (List R) :=
  if x.length ≠ 1 then .error "gradient can be computed on one sample only."
  else
    let s := x.headD []
    match getLayerOutput a.model s layer with
    | .error e => .error e
    | .ok out =>
        match w with
        | none =>
            match layer with
            | some _ =>
                .error ("grad can be implicitly created only for the last "
                  ++ "layer. `w` is needed when `layer` is not None.")
            | none =>
                match y with
                | none =>
                    .error ("The class label wrt compute the gradient at "
                      ++ "the last layer is required.")
                | some k =>
                    let w_in : List R := oneHot k out.length
                    let w_in := if a.softmax_outputs then
                        List.zipWith (fun a b => a * b) w_in (sgrad out (some k))
                      else w_in
                    .ok (backwardChain (layersUpTo a.model none) s w_in)
        | some wv =>
            let w_in := if layer = none ∧ a.softmax_outputs then
                List.zipWith (fun a b => a * b) wv (sgrad out y)
              else wv
            .ok (backwardChain (layersUpTo a.model layer) s w_in)

/-- An epoch of the inner training loop of `_fit` (shuffled batches, loss
back-propagation, optimizer steps, accuracy averaging), abstracted as a
function from the epoch index and the live model and optimizer to the
updated model and optimizer and the average epoch accuracy. -/
abbrev EpochFn (R : Type) := ℕ → Model R → Optimizer R → Model R × Optimizer R × R

/-- The epoch loop of `_fit` over the listed epoch indices, threading the
live adapter and the best snapshot: each epoch runs the training body,
records the loop variable in `start_epoch` and the epoch accuracy in
`acc`; with `store_best_params` enabled an epoch strictly below the best
known accuracy is skipped, otherwise the best accuracy, and the snapshot
of the full state, are replaced by the current epoch's. -/
def fitEpochs (train : EpochFn R) (store_best_params : Bool) :
    List ℕ → Adapter R → StateRecord R → Adapter R × StateRecord R
  | [], a, best => (a, best)
  | e :: rest, a, best =>
      let (m, o, accE) := train e a.model a.optimizer
      let a' := { a with start_epoch := e, model := m, optimizer := o,
                         acc := accE }
      if store_best_params = true ∧ accE < a.best_acc then
        fitEpochs train store_best_params rest a' best
      else
        let a'' := { a' with best_acc := accE }
        fitEpochs train store_best_params rest a'' (state_dict a'')

/-- The epoch indices the `_fit` loop ranges over:
`xrange(self.start_epoch, self.epochs)`. -/
def fitEpochIdxs (a : Adapter R) : List ℕ :=
  List.range' a.start_epoch (a.epochs - a.start_epoch)

/-- Embedding of `_fit(dataset, store_best_params)`: when the epoch count
is already exhausted, warn and return the adapter untouched; otherwise
run the epoch loop over `[start_epoch, epochs)` seeded with a snapshot of
the entry state as the best one, and finally restore the best snapshot
with `load_state`.  The second component collects the warnings and the
error message of a failing final restore. -/
def _fit (train : EpochFn R) (store_best_params : Bool) (a : Adapter R) :
    Adapter R × List String :=
  if a.epochs ≤ a.start_epoch then
    (a, ["Maximum number of epochs reached, no training will be performed."])
  else
    let (a', best) :=
      fitEpochs train store_best_params (fitEpochIdxs a) a (state_dict a)
    match load_state a' best with
    | .ok b => (b, [])
    | .error e => (a', [e])

/-- The accuracies observed along the training trajectory: the live model
and optimizer evolve independently of the best-snapshot bookkeeping, so
the per-epoch accuracy sequence is a function of the initial model and
optimizer alone. -/
def fitTrace (train : EpochFn R) : List ℕ → Model R → Optimizer R → List R
  | [], _m, _o => []
  | e :: rest, m, o =>
      let (m', o', accE) := train e m o
      accE :: fitTrace train rest m' o'

/-- The model parameters after each epoch of the training trajectory. -/
def fitModels (train : EpochFn R) : List ℕ → Model R → Optimizer R → List (Model R)
  | [], _m, _o => []
  | e :: rest, m, o =>
      let (m', o', _accE) := train e m o
      m' :: fitModels train rest m' o'

/-- The per-epoch candidate pairs (epoch accuracy, full snapshot the loop
would store for that epoch) along the training trajectory. -/
def epochSnaps (train : EpochFn R) : List ℕ → Adapter R → List (R × StateRecord R)
  | [], _a => []
  | e :: rest, a =>
      let (m, o, accE) := train e a.model a.optimizer
      let a' := { a with start_epoch := e, model := m, optimizer := o,
                         acc := accE, best_acc := accE }
      (accE, state_dict a') :: epochSnaps train rest a'

/-- The pure selection the best-snapshot bookkeeping implements: fold the
candidate pairs, keeping the incumbent on a strictly smaller accuracy and
replacing it otherwise (so ties replace). -/
def selectBest {σ : Type} : R → σ → List (R × σ) → R × σ
  | b, r, [] => (b, r)
  | b, r, (c, s) :: rest =>
      if c < b then selectBest b r rest else selectBest c s rest

/-- The model parameter set an optimizer construction was bound to,
regardless of the grouping mode. -/
def ParamGrouping.boundModel {R : Type} : ParamGrouping R → Model R
  | .all p => p
  | .decaySplit p _ => p

/-! Concrete instances over `R := ℤ`, used to evaluate the theorems on
explicit inputs. -/

/-- A concrete single-layer network with three output classes on two
features. -/
def exModel : Model ℤ := [("fc", Layer.linear [[1, 2], [3, 4], [5, 6]] [0, 0, 0])]

/-- A fresh SGD optimizer bound to `exModel`. -/
def exOpt : Optimizer ℤ :=
  { grouping := .all exModel
    defaults := { lr := 1, momentum := 0, weight_decay := 0 }
    param_groups := { lr := 1, momentum := 0, weight_decay := 0 }
    state := [] }

/-- A concrete trained adapter wrapping `exModel`. -/
def exAdapter : Adapter ℤ :=
  { model := exModel, learning_rate := 1, momentum := 0, weight_decay := 0,
    regularize_bias := true, optimizer := exOpt,
    epochs := 10, start_epoch := 3, acc := 7, best_acc := 9,
    input_shape := some [2], softmax_outputs := false, batch_size := 2,
    n_features := 2, classes := [0, 1, 2] }

/-- A concrete epoch body: each epoch rewrites the single layer with a
weight depending on the epoch index and reports accuracy `50`. -/
def exTrain : EpochFn ℤ := fun e m _o =>
  ([("fc", Layer.linear [[(e : ℤ) + 2]] [0])],
   { grouping := .all m
     defaults := { lr := 1, momentum := 0, weight_decay := 0 }
     param_groups := { lr := 1, momentum := 0, weight_decay := 0 }
     state := [] },
   50)

/-- A concrete fresh one-feature one-class adapter about to be fitted for
two epochs. -/
def exA0 : Adapter ℤ :=
  { model := [("fc", Layer.linear [[1]] [0])], learning_rate := 1,
    momentum := 0, weight_decay := 0, regularize_bias := true,
    optimizer := { grouping := .all [("fc", Layer.linear [[1]] [0])],
                   defaults := { lr := 1, momentum := 0, weight_decay := 0 },
                   param_groups := { lr := 1, momentum := 0, weight_decay := 0 },
                   state := [] },
    epochs := 2, start_epoch := 0, acc := 0, best_acc := 0,
    input_shape := some [1], softmax_outputs := false, batch_size := 1,
    n_features := 1, classes := [0] }

/-- A concrete two-layer network for layer-resolution tests. -/
def exModel2 : Model ℤ :=
  [("fc1", Layer.linear [[1, 0], [0, 1]] [0, 0]),
   ("fc2", Layer.linear [[2, 3]] [1])]

/-- A freshly constructed adapter with the same architecture and
configuration as `exAdapter` but different (untrained) weights. -/
def exB1 : Adapter ℤ :=
  { exAdapter with
      model := [("fc", Layer.linear [[9, 9], [9, 9], [9, 9]] [1, 1, 1])],
      classes := [], start_epoch := 0, acc := 0, best_acc := 0 }

/-- `exAdapter` with the epoch budget already exhausted. -/
def exA3 : Adapter ℤ := { exAdapter with start_epoch := 12 }

/-- An adapter with active weight decay whose optimizer was built while
bias regularization was enabled. -/
def exA4 : Adapter ℤ :=
  { exAdapter with
      weight_decay := 1
      optimizer := { grouping := .all exModel
                     defaults := { lr := 1, momentum := 0, weight_decay := 1 }
                     param_groups := { lr := 1, momentum := 0, weight_decay := 1 }
                     state := [] } }

end Ops

/-! ## Theorems -/

section Claims

variable {R : Type} [LinearOrderedCommRing R]

/-- C3: if the training loop is entered with `start_epoch >= epochs` it
performs zero epochs, emits the maximum-epochs warning, and returns the
adapter (model parameters, optimizer state and all other fields)
untouched. -/
theorem claim_C3_zero_epoch_noop (train : EpochFn R) (sb : Bool) (a : Adapter R)
    (h : a.epochs ≤ a.start_epoch) :
    _fit train sb a
      = (a, ["Maximum number of epochs reached, no training will be performed."]) := by
  simp [_fit, h]

/-- Witness for C3 at a concrete adapter whose epoch budget is
exhausted. -/
theorem claim_C3_zero_epoch_noop_witness :
    exA3.epochs ≤ exA3.start_epoch ∧
    _fit exTrain true exA3
      = (exA3, ["Maximum number of epochs reached, no training will be performed."]) :=
  ⟨by decide, claim_C3_zero_epoch_noop exTrain true exA3 (by decide)⟩

omit [LinearOrderedCommRing R] in
lemma boundModel_ite (c : Prop) [Decidable c] (m : Model R) (wd : R) :
    (if c then ParamGrouping.decaySplit m wd else ParamGrouping.all m).boundModel
      = m := by
  split <;> rfl

/-- C4 (amended): the learning-rate, momentum and weight-decay setters
recreate the optimizer — the new handle is bound to the model's current
parameter set, captures the updated hyperparameters as its defaults and
has empty (fresh) numeric state — while the `regularize_bias` setter only
records the flag and leaves the optimizer handle untouched. -/
theorem claim_C4_setter_optimizer_recreation (a : Adapter R) (v : R) (bv : Bool) :
    ((set_learning_rate a v).optimizer.state = [] ∧
     (set_learning_rate a v).optimizer.defaults
        = { lr := v, momentum := a.momentum, weight_decay := a.weight_decay } ∧
     (set_learning_rate a v).optimizer.grouping.boundModel = a.model) ∧
    ((set_momentum a v).optimizer.state = [] ∧
     (set_momentum a v).optimizer.defaults
        = { lr := a.learning_rate, momentum := v, weight_decay := a.weight_decay } ∧
     (set_momentum a v).optimizer.grouping.boundModel = a.model) ∧
    ((set_weight_decay a v).optimizer.state = [] ∧
     (set_weight_decay a v).optimizer.defaults
        = { lr := a.learning_rate, momentum := a.momentum, weight_decay := v } ∧
     (set_weight_decay a v).optimizer.grouping.boundModel = a.model) ∧
    (set_regularize_bias a bv).optimizer = a.optimizer := by
  refine ⟨⟨rfl, rfl, ?_⟩, ⟨rfl, rfl, ?_⟩, ⟨rfl, rfl, ?_⟩, rfl⟩ <;>
    simp only [set_learning_rate, set_momentum, set_weight_decay,
      init_optimizer, boundModel_ite]

/-- Counterexample to C4 as stated: on a concrete adapter with active
weight decay, changing the bias-regularization policy through its public
setter changes the recorded policy but leaves the optimizer handle
unchanged — in particular the handle differs from the one a recreation
would produce (its parameter grouping still reflects the old policy). -/
theorem claim_C4_counterexample :
    (set_regularize_bias exA4 false).regularize_bias ≠ exA4.regularize_bias ∧
    (set_regularize_bias exA4 false).optimizer = exA4.optimizer ∧
    (set_regularize_bias exA4 false).optimizer
      ≠ (init_optimizer (set_regularize_bias exA4 false)).optimizer := by
  decide

/-- C8: the gradient operation on an input that is not a single sample
fails immediately with the one-sample-only configuration error, for
every adapter, class index, direction and layer reference — in
particular the outcome never depends on the model, so no forward pass
contributes to it. -/
theorem claim_C8_multirow_gradient_error (sgrad : List R → Option ℕ → List R)
    (a : Adapter R) (x : List (List R)) (y : Option ℕ) (w : Option (List R))
    (layer : Option String) (h : x.length ≠ 1) :
    gradient_f sgrad a x y w layer
      = .error "gradient can be computed on one sample only." := by
  simp [gradient_f, h]

/-- Witness for C8 on a concrete two-row input. -/
theorem claim_C8_multirow_gradient_error_witness :
    ([[1, 2], [3, 4]] : List (List ℤ)).length ≠ 1 ∧
    gradient_f (fun out _ => out) exAdapter [[1, 2], [3, 4]] (some 0) none none
      = .error "gradient can be computed on one sample only." :=
  ⟨by decide,
   claim_C8_multirow_gradient_error (fun out _ => out) exAdapter
     [[1, 2], [3, 4]] (some 0) none none (by decide)⟩

lemma load_state_proj (a : Adapter R) (sd : StateRecord R) (b : Adapter R)
    (h : load_state a sd = .ok b) :
    b.model = sd.model_state ∧ b.start_epoch = sd.epoch ∧
    b.acc = sd.acc.getD 0 ∧ b.best_acc = sd.best_acc.getD 0 ∧
    b.softmax_outputs = a.softmax_outputs ∧ b.batch_size = a.batch_size ∧
    (∃ shape, b.input_shape = some shape ∧
       (if a.input_shape = none then sd.input_shape else a.input_shape)
         = some shape ∧
       b.n_features = shape.sum ∧
       b.classes = List.range (dummyOutputWidth sd.model_state shape)) := by
  unfold load_state at h
  rcases hd : sd.optimizer_defaults with _ | d <;> rw [hd] at h <;>
    rcases hr : sd.optimizer_regularize_bias with _ | rb <;> rw [hr] at h <;>
    rcases hin : a.input_shape with _ | sh <;>
    rcases hsd : sd.input_shape with _ | sh2 <;>
    simp [init_optimizer, hin, hsd] at h <;>
    (subst h; simp [hin, hsd, dummyOutputWidth])

lemma load_state_ok_of_shape (a : Adapter R) (sd : StateRecord R) (sh : List ℕ)
    (h : a.input_shape = some sh) : ∃ b, load_state a sd = .ok b := by
  unfold load_state
  rcases hd : sd.optimizer_defaults with _ | d <;>
    rcases hr : sd.optimizer_regularize_bias with _ | rb <;>
    simp [init_optimizer, h]

/-- C10: after every successful `load_state` call, the stored feature
count `n_features` equals the arithmetic sum of the entries of the input
shape (not their product), and the class set is recomputed as the range
`0..C-1` where `C` is the output width of a dummy forward pass through
the restored model. -/
theorem claim_C10_n_features_sum_classes_range (a : Adapter R)
    (sd : StateRecord R) (b : Adapter R) (h : load_state a sd = .ok b) :
    ∃ shape, b.input_shape = some shape ∧ b.n_features = shape.sum ∧
      b.classes = List.range (dummyOutputWidth b.model shape) := by
  obtain ⟨hm, -, -, -, -, -, shape, hbs, -, hnf, hcl⟩ := load_state_proj a sd b h
  exact ⟨shape, hbs, hnf, by rw [hcl, hm]⟩

/-- Witness for C10: a concrete round trip through
`load_state (state_dict exAdapter)`. -/
theorem claim_C10_n_features_sum_classes_range_witness :
    load_state exAdapter (state_dict exAdapter)
        = .ok { exAdapter with start_epoch := 4 } ∧
    ∃ shape,
      ({ exAdapter with start_epoch := 4 } : Adapter ℤ).input_shape
          = some shape ∧
      ({ exAdapter with start_epoch := 4 } : Adapter ℤ).n_features
          = shape.sum ∧
      ({ exAdapter with start_epoch := 4 } : Adapter ℤ).classes
          = List.range
              (dummyOutputWidth
                ({ exAdapter with start_epoch := 4 } : Adapter ℤ).model shape) :=
  ⟨by decide,
   claim_C10_n_features_sum_classes_range exAdapter (state_dict exAdapter) _
     (by decide)⟩

lemma Model.forward_cons (kl : String × Layer R) (rest : Model R) (s : List R) :
    Model.forward (kl :: rest) s = Model.forward rest (kl.2.forward s) := rfl

lemma getLayerOutputNamed_of_mem (m : Model R) (s : List R) (name : String)
    (h : name ∈ m.map Prod.fst) :
    getLayerOutputNamed m s name
      = .ok (Model.forward (m.take ((m.map Prod.fst).indexOf name + 1)) s) := by
  induction m generalizing s with
  | nil => simp at h
  | cons kl rest ih =>
      obtain ⟨k, l⟩ := kl
      by_cases hk : k = name
      · subst hk
        simp [getLayerOutputNamed, List.indexOf_cons_self, Model.forward]
      · have h' : name ∈ rest.map Prod.fst := by
          simp only [List.map_cons, List.mem_cons] at h
          exact h.resolve_left (fun he => hk he.symm)
        have hidx : ((k :: rest.map Prod.fst).indexOf name)
            = ((rest.map Prod.fst).indexOf name) + 1 :=
          List.indexOf_cons_ne _ hk
        simp [getLayerOutputNamed, hk, ih _ h', List.map_cons, hidx,
          List.take_succ_cons, Model.forward_cons]

lemma getLayerOutputNamed_of_not_mem (m : Model R) (s : List R) (name : String)
    (h : name ∉ m.map Prod.fst) :
    getLayerOutputNamed m s name
      = .error ("No layer `" ++ name ++ "` found!") := by
  induction m generalizing s with
  | nil => simp [getLayerOutputNamed]
  | cons kl rest ih =>
      obtain ⟨k, l⟩ := kl
      simp only [List.map_cons, List.mem_cons, not_or] at h
      have hk : ¬k = name := fun he => h.1 he.symm
      simp [getLayerOutputNamed, hk, ih _ h.2]

/-- C9: layer lookup during gradient and extraction traverses the
model's top-level sub-modules sequentially in declaration order,
forwarding the input through each one, and stops at the first module
whose name matches the requested layer — the produced output is the
forward composition of the modules up to and including the first match
(`indexOf` is the first matching position); when no top-level module
name matches, it fails with the configuration error. -/
theorem claim_C9_layer_resolution (m : Model R) (s : List R) (name : String) :
    (name ∈ m.map Prod.fst →
       getLayerOutput m s (some name)
         = .ok (Model.forward
             (m.take ((m.map Prod.fst).indexOf name + 1)) s)) ∧
    (name ∉ m.map Prod.fst →
       getLayerOutput m s (some name)
         = .error ("No layer `" ++ name ++ "` found!")) :=
  ⟨fun h => getLayerOutputNamed_of_mem m s name h,
   fun h => getLayerOutputNamed_of_not_mem m s name h⟩

/-- Witness for C9 on a concrete two-layer model: a hit on the second
layer and a miss. -/
theorem claim_C9_layer_resolution_witness :
    getLayerOutput exModel2 [1, 2] (some "fc2")
        = .ok (Model.forward
            (exModel2.take ((exModel2.map Prod.fst).indexOf "fc2" + 1)) [1, 2]) ∧
    getLayerOutput exModel2 [1, 2] (some "nope")
        = .error ("No layer `nope` found!") :=
  ⟨(claim_C9_layer_resolution exModel2 [1, 2] "fc2").1 (by decide),
   (claim_C9_layer_resolution exModel2 [1, 2] "nope").2 (by decide)⟩

omit [LinearOrderedCommRing R] in
lemma range_map_getD (l : List R) (d : R) :
    (List.range l.length).map (fun j => l.getD j d) = l := by
  induction l with
  | nil => simp
  | cons x xs ih =>
      rw [List.length_cons, List.range_succ_eq_map, List.map_cons, List.map_map]
      rw [show ((fun j => (x :: xs).getD j d) ∘ Nat.succ)
            = (fun j => xs.getD j d)
          from funext fun j => List.getD_cons_succ]
      rw [List.getD_cons_zero, ih]

lemma oneHot_zero_succ (n : ℕ) :
    (oneHot 0 (n + 1) : List R) = 1 :: List.replicate n 0 := by
  simp [oneHot, List.range_succ_eq_map, List.map_map, Function.comp_def,
    List.map_const']

lemma oneHot_succ_succ (k n : ℕ) :
    (oneHot (k + 1) (n + 1) : List R) = 0 :: oneHot k n := by
  simp [oneHot, List.range_succ_eq_map, List.map_map, Function.comp_def]

lemma zip_mul_replicate_zero (W : List (List R)) (n j : ℕ) :
    (List.zipWith (fun wi row => wi * row.getD j 0)
      (List.replicate n (0 : R)) W).sum = 0 := by
  induction W generalizing n with
  | nil => simp
  | cons r rs ih =>
      cases n with
      | zero => simp
      | succ n =>
          rw [List.replicate_succ, List.zipWith_cons_cons, List.sum_cons,
            zero_mul, zero_add]
          exact ih n

lemma oneHot_zip_mul_sum (W : List (List R)) (k j : ℕ) (hk : k < W.length) :
    (List.zipWith (fun wi row => wi * row.getD j 0)
      (oneHot k W.length) W).sum = (W.getD k []).getD j 0 := by
  induction W generalizing k with
  | nil => simp at hk
  | cons r rs ih =>
      cases k with
      | zero =>
          rw [List.length_cons, oneHot_zero_succ, List.zipWith_cons_cons,
            List.sum_cons, one_mul, zip_mul_replicate_zero, add_zero,
            List.getD_cons_zero]
      | succ k =>
          rw [List.length_cons, oneHot_succ_succ, List.zipWith_cons_cons,
            List.sum_cons, zero_mul, zero_add, List.getD_cons_succ]
          exact ih k (Nat.lt_of_succ_lt_succ hk)

/-- C5: for a single-sample input with `layer=None` and no explicit
direction, the gradient operation back-propagates a one-hot seed at the
requested class index, so for a single linear layer with weight matrix
`W` it returns exactly row `k` of `W`; and with `layer=None`, no
direction and no class index it fails, i.e. the class index is
required. -/
theorem claim_C5_gradient_last_layer_linear (sgrad : List R → Option ℕ → List R)
    (a : Adapter R) (nm : String) (W : List (List R)) (b : List R)
    (x0 : List R) (k : ℕ)
    (hmodel : a.model = [(nm, Layer.linear W b)])
    (hsm : a.softmax_outputs = false)
    (hk : k < W.length) (hb : b.length = W.length)
    (hrow : (W.getD k []).length = x0.length) :
    gradient_f sgrad a [x0] (some k) none none = .ok (W.getD k []) ∧
    gradient_f sgrad a [x0] none none none
      = .error ("The class label wrt compute the gradient at "
          ++ "the last layer is required.") := by
  constructor
  · simp only [gradient_f, List.length_cons, List.length_nil, ne_eq,
      not_true_eq_false, if_false, List.headD_cons, hmodel, hsm,
      getLayerOutput, layersUpTo, Model.forward, backwardChain,
      Bool.false_eq_true, if_false, List.foldl_cons, List.foldl_nil,
      Layer.forward, Layer.vjp]
    rw [List.length_zipWith, hb, min_self]
    rw [show (fun j => (List.zipWith (fun wi row => wi * row.getD j 0)
          (oneHot k W.length : List R) W).sum)
        = fun j => (W.getD k []).getD j 0
      from funext (fun j => oneHot_zip_mul_sum W k j hk)]
    rw [← hrow, range_map_getD]
  · simp [gradient_f, getLayerOutput]

/-- Witness for C5 on the concrete adapter `exAdapter` and class `1`. -/
theorem claim_C5_gradient_last_layer_linear_witness :
    ((1 : ℕ) < ([[1, 2], [3, 4], [5, 6]] : List (List ℤ)).length) ∧
    (gradient_f (fun out _ => out) exAdapter [[10, 20]] (some 1) none none
        = .ok (([[1, 2], [3, 4], [5, 6]] : List (List ℤ)).getD 1 []) ∧
     gradient_f (fun out _ => out) exAdapter [[10, 20]] none none none
        = .error ("The class label wrt compute the gradient at "
            ++ "the last layer is required.")) :=
  ⟨by decide,
   claim_C5_gradient_last_layer_linear (fun out _ => out) exAdapter "fc"
     [[1, 2], [3, 4], [5, 6]] [0, 0, 0] [10, 20] 1 (by decide) (by decide)
     (by decide) (by decide) (by decide)⟩

omit [LinearOrderedCommRing R] in
lemma chunkList_flatten {α : Type} (b : ℕ) (hb : 0 < b) (xs : List α) :
    (chunkList b xs).flatten = xs := by
  rw [chunkList]
  by_cases hx : xs.isEmpty
  · simp [hx, List.isEmpty_iff.mp hx]
  · have hb' : ¬b = 0 := Nat.pos_iff_ne_zero.mp hb
    simp only [hx, Bool.false_eq_true, if_false, hb', List.flatten_cons]
    rw [chunkList_flatten b hb (xs.drop b), List.take_append_drop]
termination_by xs.length
decreasing_by
  simp only [List.length_drop]
  have hl : xs.length ≠ 0 := by
    simpa [List.isEmpty_iff_length_eq_zero] using hx
  omega

lemma predictScores_eq (smax : List R → List R) (a : Adapter R)
    (x : List (List R)) (hb : 0 < a.batch_size) :
    predictScores smax a x
      = (if a.softmax_outputs then (x.map (Model.forward a.model)).map smax
         else x.map (Model.forward a.model)) := by
  unfold predictScores
  rw [← List.map_flatten, chunkList_flatten _ hb]

/-- C7: the concatenated `predict` output preserves the input row order
(row `i` of the score matrix is the forward pass of input row `i`), and
the full result of `predict` — labels and scores — is identical for
every positive batch size. -/
theorem claim_C7_batch_order_invariance (smax : List R → List R)
    (a : Adapter R) (x : List (List R)) (b₁ b₂ : ℕ)
    (h₁ : 0 < b₁) (h₂ : 0 < b₂) :
    predictScores smax { a with batch_size := b₁ } x
        = (if a.softmax_outputs then (x.map (Model.forward a.model)).map smax
           else x.map (Model.forward a.model)) ∧
    predict smax { a with batch_size := b₁ } x
        = predict smax { a with batch_size := b₂ } x := by
  have e₁ := predictScores_eq smax { a with batch_size := b₁ } x (by simpa)
  have e₂ := predictScores_eq smax { a with batch_size := b₂ } x (by simpa)
  refine ⟨e₁, ?_⟩
  unfold predict
  rw [show is_clear { a with batch_size := b₁ } = is_clear a from rfl,
      show is_clear { a with batch_size := b₂ } = is_clear a from rfl, e₁, e₂]

/-- Witness for C7: batch sizes 2 and 3 on a concrete five-row input. -/
theorem claim_C7_batch_order_invariance_witness :
    (0 < 2 ∧ 0 < 3) ∧
    (predictScores id { exAdapter with batch_size := 2 }
          ([[1, 0], [0, 1], [1, 1], [2, 0], [0, 2]] : List (List ℤ))
        = (if exAdapter.softmax_outputs then
             (([[1, 0], [0, 1], [1, 1], [2, 0], [0, 2]] : List (List ℤ)).map
               (Model.forward exAdapter.model)).map id
           else ([[1, 0], [0, 1], [1, 1], [2, 0], [0, 2]] : List (List ℤ)).map
               (Model.forward exAdapter.model)) ∧
     predict id { exAdapter with batch_size := 2 }
          [[1, 0], [0, 1], [1, 1], [2, 0], [0, 2]]
        = predict id { exAdapter with batch_size := 3 }
          [[1, 0], [0, 1], [1, 1], [2, 0], [0, 2]]) :=
  ⟨⟨by decide, by decide⟩,
   claim_C7_batch_order_invariance id exAdapter
     [[1, 0], [0, 1], [1, 1], [2, 0], [0, 2]] 2 3 (by decide) (by decide)⟩

/-- C6: for every adapter, input matrix and class index, the flat
sequence returned by `decision_function` is exactly column `y` of the
score matrix produced by `predict` with `return_decision_function=True`
— including when softmax post-processing is enabled, although
`decision_function` applies the row-wise softmax per batch block while
`predict` applies it after concatenating all blocks. -/
theorem claim_C6_decision_function_is_predict_column (smax : List R → List R)
    (a : Adapter R) (x : List (List R)) (y : ℕ) (h : is_clear a = false) :
    ∃ labels scores, predict smax a x = .ok (labels, scores) ∧
      decision_function smax a x y
        = .ok (scores.map (fun row => row.getD y 0)) := by
  refine ⟨(predictScores smax a x).map argmaxIdx, predictScores smax a x,
    by simp [predict, h], ?_⟩
  unfold decision_function predictScores
  simp only [h, Bool.false_eq_true, if_false]
  cases hsm : a.softmax_outputs <;>
    simp [hsm, List.map_flatten, List.map_map, Function.comp_def]

/-- Witness for C6 on a softmax-enabled concrete adapter, with a
non-trivial stand-in for the row-wise softmax map. -/
theorem claim_C6_decision_function_is_predict_column_witness :
    is_clear { exAdapter with softmax_outputs := true } = false ∧
    ∃ labels scores,
      predict (fun r => r.map (fun v => v + 1))
          { exAdapter with softmax_outputs := true }
          ([[1, 0], [0, 1], [1, 1]] : List (List ℤ))
        = .ok (labels, scores) ∧
      decision_function (fun r => r.map (fun v => v + 1))
          { exAdapter with softmax_outputs := true }
          [[1, 0], [0, 1], [1, 1]] 1
        = .ok (scores.map (fun row => row.getD 1 0)) :=
  ⟨by decide,
   claim_C6_decision_function_is_predict_column (fun r => r.map (fun v => v + 1))
     { exAdapter with softmax_outputs := true }
     [[1, 0], [0, 1], [1, 1]] 1 (by decide)⟩

/-- C1: exporting a trained adapter `A` whose input shape is known with
`state_dict()` and importing the record into a freshly constructed
adapter `B` of identical architecture (same constructor configuration:
same declared input shape, softmax flag and batch size) succeeds, yields
identical predictions on every input, and sets the resumed epoch counter
of `B` to `A`'s epoch counter plus one. -/
theorem claim_C1_state_roundtrip (smax : List R → List R) (A B : Adapter R)
    (sh : List ℕ) (x : List (List R))
    (hA : A.input_shape = some sh)
    (hBsh : B.input_shape = A.input_shape)
    (hBsm : B.softmax_outputs = A.softmax_outputs)
    (hBbs : B.batch_size = A.batch_size)
    (hAtr : is_clear A = false)
    (hw : dummyOutputWidth A.model sh ≠ 0) :
    ∃ b, load_state B (state_dict A) = .ok b ∧
      predict smax b x = predict smax A x ∧
      b.start_epoch = A.start_epoch + 1 := by
  obtain ⟨b, hb⟩ := load_state_ok_of_shape B (state_dict A) sh (hBsh.trans hA)
  obtain ⟨hm, hep, -, -, -, hbs', hproj⟩ := load_state_proj B (state_dict A) b hb
  obtain ⟨shape, hbsh, hshape_if, -, hcl⟩ := hproj
  have hsh_eq : shape = sh := by
    rw [hBsh.trans hA] at hshape_if
    simpa using hshape_if.symm
  refine ⟨b, hb, ?_, ?_⟩
  · have hclb : is_clear b = false := by
      subst hsh_eq
      simp [is_clear, hcl, List.isEmpty_iff, List.range_eq_nil, state_dict, hw]
    have hps : predictScores smax b x = predictScores smax A x := by
      unfold predictScores
      rw [hm, hbs', hBbs]
      rw [show b.softmax_outputs = A.softmax_outputs from
        (load_state_proj B (state_dict A) b hb).2.2.2.2.1.trans hBsm]
      rfl
    unfold predict
    rw [hclb, hAtr, hps]
  · rw [hep]
    rfl

/-- Witness for C1: `exAdapter` exported into a same-architecture fresh
adapter with different initial weights. -/
theorem claim_C1_state_roundtrip_witness :
    (exAdapter.input_shape = some [2] ∧ is_clear exAdapter = false ∧
     exB1.input_shape = exAdapter.input_shape ∧
     dummyOutputWidth exAdapter.model [2] ≠ 0) ∧
    ∃ b, load_state exB1 (state_dict exAdapter) = .ok b ∧
      predict id b [[1, 2], [3, 4]] = predict id exAdapter [[1, 2], [3, 4]] ∧
      b.start_epoch = exAdapter.start_epoch + 1 :=
  ⟨⟨by decide, by decide, by decide, by decide⟩,
   claim_C1_state_roundtrip id exAdapter exB1 [2] [[1, 2], [3, 4]]
     (by decide) (by decide) (by decide) (by decide) (by decide) (by decide)⟩

lemma fitEpochs_fst_input_shape (train : EpochFn R) (sb : Bool) :
    ∀ (es : List ℕ) (a : Adapter R) (Rst : StateRecord R),
      ((fitEpochs train sb es a Rst).1).input_shape = a.input_shape := by
  intro es
  induction es with
  | nil => intro a Rst; rfl
  | cons e rest ih =>
      intro a Rst
      rcases htr : train e a.model a.optimizer with ⟨m, o, accE⟩
      by_cases hc : sb = true ∧ accE < a.best_acc
      · simp only [fitEpochs, htr, if_pos hc]
        simpa using ih _ _
      · simp only [fitEpochs, htr, if_neg hc]
        simpa using ih _ _

omit [LinearOrderedCommRing R] in
lemma epochSnaps_congr (train : EpochFn R) :
    ∀ (es : List ℕ) (a₁ a₂ : Adapter R),
      a₁.model = a₂.model → a₁.optimizer = a₂.optimizer →
      a₁.regularize_bias = a₂.regularize_bias →
      a₁.input_shape = a₂.input_shape →
      epochSnaps train es a₁ = epochSnaps train es a₂ := by
  intro es
  induction es with
  | nil => intros; rfl
  | cons e rest ih =>
      intro a₁ a₂ hm ho hr hi
      rcases htr : train e a₂.model a₂.optimizer with ⟨m, o, accE⟩
      have htr₁ : train e a₁.model a₁.optimizer = (m, o, accE) := by
        rw [hm, ho, htr]
      simp only [epochSnaps, htr, htr₁]
      refine congrArg₂ _ ?_ (ih _ _ rfl rfl (by simpa using hr) (by simpa using hi))
      simp [state_dict, hr, hi]

omit [LinearOrderedCommRing R] in
lemma epochSnaps_map_fst (train : EpochFn R) :
    ∀ (es : List ℕ) (a : Adapter R),
      (epochSnaps train es a).map Prod.fst
        = fitTrace train es a.model a.optimizer := by
  intro es
  induction es with
  | nil => intros; rfl
  | cons e rest ih =>
      intro a
      rcases htr : train e a.model a.optimizer with ⟨m, o, accE⟩
      simp only [epochSnaps, fitTrace, htr, List.map_cons]
      exact congrArg₂ _ rfl (by simpa using ih _)

omit [LinearOrderedCommRing R] in
lemma epochSnaps_map_model (train : EpochFn R) :
    ∀ (es : List ℕ) (a : Adapter R),
      (epochSnaps train es a).map (fun p => p.2.model_state)
        = fitModels train es a.model a.optimizer := by
  intro es
  induction es with
  | nil => intros; rfl
  | cons e rest ih =>
      intro a
      rcases htr : train e a.model a.optimizer with ⟨m, o, accE⟩
      simp only [epochSnaps, fitModels, htr, List.map_cons]
      exact congrArg₂ _ rfl (by simpa using ih _)

omit [LinearOrderedCommRing R] in
lemma epochSnaps_map_epoch (train : EpochFn R) :
    ∀ (es : List ℕ) (a : Adapter R),
      (epochSnaps train es a).map (fun p => p.2.epoch)
        = es.map (fun e => e + 1) := by
  intro es
  induction es with
  | nil => intros; rfl
  | cons e rest ih =>
      intro a
      rcases htr : train e a.model a.optimizer with ⟨m, o, accE⟩
      simp only [epochSnaps, htr, List.map_cons]
      exact congrArg₂ _ rfl (ih _)

omit [LinearOrderedCommRing R] in
lemma epochSnaps_map_best_acc (train : EpochFn R) :
    ∀ (es : List ℕ) (a : Adapter R),
      (epochSnaps train es a).map (fun p => p.2.best_acc)
        = (epochSnaps train es a).map (fun p => some p.1) := by
  intro es
  induction es with
  | nil => intros; rfl
  | cons e rest ih =>
      intro a
      rcases htr : train e a.model a.optimizer with ⟨m, o, accE⟩
      simp only [epochSnaps, htr, List.map_cons]
      exact congrArg₂ _ rfl (ih _)

lemma fitEpochs_snd (train : EpochFn R) :
    ∀ (es : List ℕ) (a : Adapter R) (Rst : StateRecord R),
      (fitEpochs train true es a Rst).2
        = (selectBest a.best_acc Rst (epochSnaps train es a)).2 := by
  intro es
  induction es with
  | nil => intros; rfl
  | cons e rest ih =>
      intro a Rst
      rcases htr : train e a.model a.optimizer with ⟨m, o, accE⟩
      by_cases hc : accE < a.best_acc
      · simp only [fitEpochs, epochSnaps, htr, selectBest, true_and, if_pos hc]
        rw [ih]
        have hcg := epochSnaps_congr train rest
          { a with start_epoch := e, model := m, optimizer := o, acc := accE,
                   best_acc := accE }
          { a with start_epoch := e, model := m, optimizer := o, acc := accE }
          rfl rfl rfl rfl
        rw [hcg]
      · simp only [fitEpochs, epochSnaps, htr, selectBest, true_and, if_neg hc]
        exact ih _ _

lemma foldl_max_of_le (xs : List R) :
    ∀ (m : R), (∀ x ∈ xs, x ≤ m) → xs.foldl max m = m := by
  induction xs with
  | nil => intros; rfl
  | cons x rest ih =>
      intro m h
      rw [List.foldl_cons, max_eq_left (h x (by simp))]
      exact ih m (fun z hz => h z (by simp [hz]))

lemma le_foldl_max (xs : List R) :
    ∀ (m : R), m ≤ xs.foldl max m ∧ ∀ x ∈ xs, x ≤ xs.foldl max m := by
  induction xs with
  | nil => intro m; exact ⟨le_refl m, by simp⟩
  | cons x rest ih =>
      intro m
      rw [List.foldl_cons]
      refine ⟨le_trans (le_max_left m x) (ih (max m x)).1, ?_⟩
      rintro z hz
      rcases List.mem_cons.mp hz with rfl | hmem
      · exact le_trans (le_max_right m z) (ih (max m z)).1
      · exact (ih (max m x)).2 z hmem

lemma selectBest_all_lt {σ : Type} :
    ∀ (l : List (R × σ)) (b : R) (r : σ),
      (∀ p ∈ l, p.1 < b) → selectBest b r l = (b, r) := by
  intro l
  induction l with
  | nil => intros; rfl
  | cons hd rest ih =>
      intro b r h
      obtain ⟨c, s⟩ := hd
      rw [selectBest, if_pos (h (c, s) (by simp))]
      exact ih b r (fun p hp => h p (by simp [hp]))

lemma selectBest_exists {σ : Type} :
    ∀ (l : List (R × σ)) (b : R) (r : σ), (∃ p ∈ l, b ≤ p.1) →
      ∃ (i : ℕ) (p : R × σ), l[i]? = some p ∧ p.1 = (l.map Prod.fst).foldl max b ∧
        (∀ j q, i < j → l[j]? = some q → q.1 < p.1) ∧
        selectBest b r l = (p.1, p.2) := by
  intro l
  induction l with
  | nil => rintro b r ⟨p, hp, -⟩; simp at hp
  | cons hd rest ih =>
      rintro b r hex
      obtain ⟨c, s⟩ := hd
      by_cases hc : c < b
      · have hex' : ∃ p ∈ rest, b ≤ p.1 := by
          obtain ⟨p, hp, hbp⟩ := hex
          rcases List.mem_cons.mp hp with rfl | hmem
          · exact absurd hbp (not_le.mpr hc)
          · exact ⟨p, hmem, hbp⟩
        obtain ⟨i, p, hip, hmax, hafter, hsel⟩ := ih b r hex'
        refine ⟨i + 1, p, by rw [List.getElem?_cons_succ]; exact hip, ?_, ?_, ?_⟩
        · rw [List.map_cons, List.foldl_cons, max_eq_left (le_of_lt hc)]
          exact hmax
        · rintro j q hj hq
          cases j with
          | zero => omega
          | succ j => exact hafter j q (by omega) (by rwa [List.getElem?_cons_succ] at hq)
        · rw [selectBest, if_pos hc]
          exact hsel
      · push_neg at hc
        by_cases hex' : ∃ p ∈ rest, c ≤ p.1
        · obtain ⟨i, p, hip, hmax, hafter, hsel⟩ := ih c s hex'
          refine ⟨i + 1, p, by rw [List.getElem?_cons_succ]; exact hip, ?_, ?_, ?_⟩
          · rw [List.map_cons, List.foldl_cons, max_eq_right hc]
            exact hmax
          · rintro j q hj hq
            cases j with
            | zero => omega
            | succ j => exact hafter j q (by omega) (by rwa [List.getElem?_cons_succ] at hq)
          · rw [selectBest, if_neg (not_lt.mpr hc)]
            exact hsel
        · push_neg at hex'
          refine ⟨0, (c, s), by simp, ?_, ?_, ?_⟩
          · rw [List.map_cons, List.foldl_cons, max_eq_right hc]
            refine (foldl_max_of_le _ c ?_).symm
            rintro z hz
            obtain ⟨p, hp, rfl⟩ := List.mem_map.mp hz
            exact le_of_lt (hex' p hp)
          · rintro j q hj hq
            cases j with
            | zero => omega
            | succ j =>
                exact hex' q (List.getElem?_mem (by rwa [List.getElem?_cons_succ] at hq))
          · rw [selectBest, if_neg (not_lt.mpr hc)]
            exact selectBest_all_lt rest c s hex'

/-- C2 (amended): after running the training loop with the store-best
policy enabled from a fresh accuracy state (`best_acc = 0`, non-negative
per-epoch accuracies), `best_acc` equals the maximum of the per-epoch
training accuracies observed, and the restored final model parameters
equal the Training State snapshot taken at the epoch achieving that
maximum — with the LAST such epoch chosen on ties (an accuracy equal to
the best known one overwrites the stored snapshot); the restored epoch
counter is that epoch plus one. -/
theorem claim_C2_best_checkpoint (train : EpochFn R) (a : Adapter R) (sh : List ℕ)
    (hfresh : a.best_acc = 0) (hsh : a.input_shape = some sh)
    (hgo : a.start_epoch < a.epochs)
    (hpos : ∀ c ∈ fitTrace train (fitEpochIdxs a) a.model a.optimizer, 0 ≤ c) :
    (_fit train true a).1.best_acc
        = (fitTrace train (fitEpochIdxs a) a.model a.optimizer).foldl max 0 ∧
    ∃ i : ℕ,
      (fitTrace train (fitEpochIdxs a) a.model a.optimizer)[i]?
          = some ((fitTrace train (fitEpochIdxs a) a.model a.optimizer).foldl max 0) ∧
      (∀ (j : ℕ) (v : R),
          (fitTrace train (fitEpochIdxs a) a.model a.optimizer)[j]? = some v →
          v ≤ (fitTrace train (fitEpochIdxs a) a.model a.optimizer).foldl max 0) ∧
      (∀ (j : ℕ) (v : R), i < j →
          (fitTrace train (fitEpochIdxs a) a.model a.optimizer)[j]? = some v →
          v < (fitTrace train (fitEpochIdxs a) a.model a.optimizer).foldl max 0) ∧
      (fitModels train (fitEpochIdxs a) a.model a.optimizer)[i]?
          = some (_fit train true a).1.model ∧
      (_fit train true a).1.start_epoch = a.start_epoch + i + 1 := by
  have hmapfst : (epochSnaps train (fitEpochIdxs a) a).map Prod.fst
      = fitTrace train (fitEpochIdxs a) a.model a.optimizer :=
    epochSnaps_map_fst train (fitEpochIdxs a) a
  have hes_len : (fitEpochIdxs a).length = a.epochs - a.start_epoch := by
    simp [fitEpochIdxs, List.length_range']
  have hlen_l : (epochSnaps train (fitEpochIdxs a) a).length
      = (fitEpochIdxs a).length := by
    have h1 := epochSnaps_map_epoch train (fitEpochIdxs a) a
    have h2 := congrArg List.length h1
    simpa using h2
  -- a first element of the snapshot list
  have hlpos : 0 < (epochSnaps train (fitEpochIdxs a) a).length := by
    rw [hlen_l, hes_len]; omega
  obtain ⟨p₀, hp₀⟩ : ∃ p₀, (epochSnaps train (fitEpochIdxs a) a)[0]? = some p₀ := by
    cases hc : (epochSnaps train (fitEpochIdxs a) a)[0]?
    · rw [List.getElem?_eq_none_iff] at hc; omega
    · exact ⟨_, rfl⟩
  have hex : ∃ p ∈ epochSnaps train (fitEpochIdxs a) a, a.best_acc ≤ p.1 := by
    refine ⟨p₀, List.getElem?_mem hp₀, ?_⟩
    rw [hfresh]
    refine hpos p₀.1 ?_
    rw [← hmapfst]
    exact List.mem_map_of_mem Prod.fst (List.getElem?_mem hp₀)
  obtain ⟨i, p, hip, hmax, hafter, hsel⟩ :=
    selectBest_exists (epochSnaps train (fitEpochIdxs a) a) a.best_acc
      (state_dict a) hex
  have hM : p.1 = (fitTrace train (fitEpochIdxs a) a.model a.optimizer).foldl max 0 := by
    rw [hmax, hmapfst, hfresh]
  have hne : ¬a.epochs ≤ a.start_epoch := not_le.mpr hgo
  rcases hfe : fitEpochs train true (fitEpochIdxs a) a (state_dict a) with ⟨a', best⟩
  have hbest : best = p.2 := by
    have h2 := fitEpochs_snd train (fitEpochIdxs a) a (state_dict a)
    rw [hfe, hsel] at h2
    exact h2
  have ha'sh : a'.input_shape = some sh := by
    have h3 := fitEpochs_fst_input_shape train true (fitEpochIdxs a) a (state_dict a)
    rw [hfe] at h3
    exact h3.trans hsh
  obtain ⟨bres, hbr⟩ := load_state_ok_of_shape a' best sh ha'sh
  have hfit : (_fit train true a).1 = bres := by
    unfold _fit
    rw [if_neg hne]
    simp only [hfe, hbr]
  obtain ⟨hm_model, hep, -, hbacc, -, -, -⟩ := load_state_proj a' best bres hbr
  have hi_lt : i < (epochSnaps train (fitEpochIdxs a) a).length :=
    (List.getElem?_eq_some.mp hip).1
  have hfst_i : (fitTrace train (fitEpochIdxs a) a.model a.optimizer)[i]? = some p.1 := by
    rw [← hmapfst, List.getElem?_map, hip]
    rfl
  have hmodel_i : (fitModels train (fitEpochIdxs a) a.model a.optimizer)[i]?
      = some p.2.model_state := by
    rw [← epochSnaps_map_model train (fitEpochIdxs a) a, List.getElem?_map, hip]
    rfl
  have hepoch_i : p.2.epoch = a.start_epoch + i + 1 := by
    have h1 : ((epochSnaps train (fitEpochIdxs a) a).map (fun p => p.2.epoch))[i]?
        = some p.2.epoch := by
      rw [List.getElem?_map, hip]; rfl
    rw [epochSnaps_map_epoch train (fitEpochIdxs a) a, List.getElem?_map] at h1
    have hes_i : (fitEpochIdxs a)[i]? = some (a.start_epoch + i) := by
      have := List.getElem?_range' a.start_epoch 1
        (show i < a.epochs - a.start_epoch by rw [← hes_len, ← hlen_l]; exact hi_lt)
      simpa [fitEpochIdxs] using this
    rw [hes_i] at h1
    simpa using h1.symm
  have hbacc_i : p.2.best_acc = some p.1 := by
    have h1 : ((epochSnaps train (fitEpochIdxs a) a).map (fun p => p.2.best_acc))[i]?
        = some p.2.best_acc := by
      rw [List.getElem?_map, hip]; rfl
    rw [epochSnaps_map_best_acc train (fitEpochIdxs a) a, List.getElem?_map, hip] at h1
    simpa using h1.symm
  refine ⟨?_, i, ?_, ?_, ?_, ?_, ?_⟩
  · rw [hfit, hbacc, hbest, hbacc_i, Option.getD_some, hM]
  · rw [hfst_i, hM]
  · rintro j v hjv
    exact (le_foldl_max (fitTrace train (fitEpochIdxs a) a.model a.optimizer) 0).2 v
      (List.getElem?_mem hjv)
  · rintro j v hj hjv
    rw [← hmapfst, List.getElem?_map] at hjv
    cases hq : (epochSnaps train (fitEpochIdxs a) a)[j]? with
    | none => rw [hq] at hjv; simp at hjv
    | some q =>
        rw [hq] at hjv
        have hv : q.1 = v := by simpa using hjv
        rw [← hM, ← hv]
        exact hafter j q hj hq
  · rw [hfit, hm_model, hbest]
    exact hmodel_i
  · rw [hfit, hep, hbest, hepoch_i]

/-- Counterexample to C2 as stated: on a concrete two-epoch fit both
epochs achieve the maximal accuracy `50`; the first such epoch is epoch
0, whose snapshot holds weight `[[2]]`, yet the restored parameters are
those of the last such epoch (`[[3]]`), so the first-epoch tie-break of
the claim is refuted. -/
theorem claim_C2_counterexample :
    fitTrace exTrain (fitEpochIdxs exA0) exA0.model exA0.optimizer = [50, 50] ∧
    fitModels exTrain (fitEpochIdxs exA0) exA0.model exA0.optimizer
      = [[("fc", Layer.linear [[2]] [0])], [("fc", Layer.linear [[3]] [0])]] ∧
    (_fit exTrain true exA0).1.model = [("fc", Layer.linear [[3]] [0])] ∧
    (_fit exTrain true exA0).1.model ≠ [("fc", Layer.linear [[2]] [0])] := by
  decide

/-- Witness for the amended C2 on the concrete two-epoch fit. -/
theorem claim_C2_best_checkpoint_witness :
    (exA0.best_acc = 0 ∧ exA0.input_shape = some [1] ∧
     exA0.start_epoch < exA0.epochs ∧
     ∀ c ∈ fitTrace exTrain (fitEpochIdxs exA0) exA0.model exA0.optimizer,
       (0 : ℤ) ≤ c) ∧
    ((_fit exTrain true exA0).1.best_acc
        = (fitTrace exTrain (fitEpochIdxs exA0) exA0.model
            exA0.optimizer).foldl max 0 ∧
     ∃ i : ℕ,
      (fitTrace exTrain (fitEpochIdxs exA0) exA0.model exA0.optimizer)[i]?
          = some ((fitTrace exTrain (fitEpochIdxs exA0) exA0.model
              exA0.optimizer).foldl max 0) ∧
      (∀ (j : ℕ) (v : ℤ),
          (fitTrace exTrain (fitEpochIdxs exA0) exA0.model exA0.optimizer)[j]?
            = some v →
          v ≤ (fitTrace exTrain (fitEpochIdxs exA0) exA0.model
              exA0.optimizer).foldl max 0) ∧
      (∀ (j : ℕ) (v : ℤ), i < j →
          (fitTrace exTrain (fitEpochIdxs exA0) exA0.model exA0.optimizer)[j]?
            = some v →
          v < (fitTrace exTrain (fitEpochIdxs exA0) exA0.model
              exA0.optimizer).foldl max 0) ∧
      (fitModels exTrain (fitEpochIdxs exA0) exA0.model exA0.optimizer)[i]?
          = some (_fit exTrain true exA0).1.model ∧
      (_fit exTrain true exA0).1.start_epoch = exA0.start_epoch + i + 1) :=
  ⟨⟨by decide, by decide, by decide, by decide⟩,
   claim_C2_best_checkpoint exTrain exA0 [1] (by decide) (by decide)
     (by decide) (by decide)⟩

end Claims

end CClassifierPyTorch
